import Mathlib

set_option maxHeartbeats 1000000

/-!
Shallow embedding of `src/antsibull/build_ansible_commands.py`.

The source orchestrates release builds of the `ansible` meta-package:
`download_collections` resolves and fetches collections from galaxy under a
bounded asyncio pool, `make_dist` / `make_collection_dist` run the external
`python setup.py sdist` step and move its single output into place, and
`build_single_command` / `build_multiple_command` sequence the two build
strategies.  Pure data manipulation is translated directly; effectful steps
are modelled as an explicit event trace; the concurrent pool is modelled by
an explicit completion schedule (a permutation of the task indices, further
constrained by the pool size), against which `asyncio.gather` collects each
task result keyed by spawn position.
-/

/-- Semantic version triple of a resolved collection
(`semantic_version.Version` in the source). -/
structure SemVer where
  major : Nat
  minor : Nat
  patch : Nat
deriving DecidableEq, Repr

/-- Modelled from the spec: the `next_major` of a resolved version `X.Y.Z`
used as the exclusive upper bound of a dependency range is `(X+1).0.0`
(the `semantic_version` library operation used at
`build_ansible_commands.py:375`). -/
def SemVer.next_major (v : SemVer) : SemVer :=
  SemVer.mk (v.major + 1) 0 0

/-- Release triple of the ansible package version
(`packaging.version.Version` in the source). -/
structure PypiVer where
  major : Nat
  minor : Nat
  micro : Nat
deriving DecidableEq, Repr

/-- String form of a `PypiVer`, as produced by `str()` in Python. -/
def pypiVerStr (v : PypiVer) : String :=
  toString v.major ++ "." ++ toString v.minor ++ "." ++ toString v.micro

/-- Python `s.startswith(pre)`. -/
def py_startswith (s pre : String) : Bool :=
  pre.toList.isPrefixOf s.toList

/-- Number of occurrences of a separator character in a character list. -/
def countCh (sep : Char) : List Char → Nat
  | [] => 0
  | c :: cs => (if c = sep then 1 else 0) + countCh sep cs

/-- Python `str.split(sep, maxsplit)` on a character list: split on `sep`
at most `k` times; whatever remains after the last allowed split stays in
the final field unsplit. -/
def splitLimitCh (sep : Char) : List Char → Nat → List (List Char)
  | [], _ => [[]]
  | c :: cs, k =>
    if c = sep ∧ k ≠ 0 then
      [] :: splitLimitCh sep cs (k - 1)
    else
      match splitLimitCh sep cs k with
      | [] => [[c]]
      | f :: fs => (c :: f) :: fs

/-- Python `s.split(sep, maxsplit)` for a single-character separator. -/
def pySplit (s : String) (sep : Char) (maxsplit : Nat) : List String :=
  (splitLimitCh sep s.toList maxsplit).map String.mk

/-- Numeric value of a decimal digit character, if it is one. -/
def digitVal (c : Char) : Option Nat :=
  if 48 ≤ c.toNat ∧ c.toNat ≤ 57 then some (c.toNat - 48) else none

/-- Accumulating decimal parser for a character list. -/
def natOfCharsAux : List Char → Nat → Option Nat
  | [], acc => some acc
  | c :: cs, acc =>
    match digitVal c with
    | some d => natOfCharsAux cs (acc * 10 + d)
    | none => none

/-- Parse a non-empty all-digit character list as a natural number. -/
def natOfChars (cs : List Char) : Option Nat :=
  match cs with
  | [] => none
  | _ => natOfCharsAux cs 0

/-- Major and minor components of a dotted version string such as `2.11`
or `2.11.0` (used to state what a major.minor comparison would require). -/
def majorMinorOfString (s : String) : Option (Nat × Nat) :=
  match pySplit s (Char.ofNat 46) s.length with
  | a :: b :: _ =>
    match natOfChars a.toList, natOfChars b.toList with
    | some x, some y => some (x, y)
    | _, _ => none
  | _ => none

/-- Join character-list path components with a slash, for `dirname`. -/
def joinSlash : List (List Char) → List Char
  | [] => []
  | [x] => x
  | x :: xs => x ++ Char.ofNat 47 :: joinSlash xs

/-- Python `os.path.basename` (final slash-separated component). -/
def basename (p : String) : String :=
  String.mk ((splitLimitCh (Char.ofNat 47) p.toList p.length).getLastD [])

/-- Python `os.path.dirname` (everything before the final slash). -/
def dirname (p : String) : String :=
  String.mk (joinSlash ((splitLimitCh (Char.ofNat 47) p.toList p.length).dropLast))

/-- The galaxy registry as seen through
`CollectionDownloader.download_latest_matching`: for a collection name and a
version specifier it either yields the resolved version or fails.  One fixed
`Registry` value models one fixed registry state, so a task's outcome is a
function of the request only, never of scheduling. -/
def Registry : Type :=
  String → String → Except String SemVer

/-- Result of the fetch task spawned for request index `i` of `deps`
(the `requestors` entry created at `build_ansible_commands.py:52`). -/
def taskResult (registry : Registry) (deps : List (String × String)) (i : Nat) :
    Option (Except String SemVer) :=
  (deps[i]?).map (fun p => registry p.1 p.2)

/-- Completion log of one run of the pool: the tasks finish in the order
given by the schedule `sched`, and every spawned task finishes (the
`AioPool` context manager joins all tasks on exit; nothing is cancelled
when a sibling fails). -/
def completionEvents (registry : Registry) (deps : List (String × String))
    (sched : List Nat) : List (Nat × Except String SemVer) :=
  sched.filterMap (fun i => (taskResult registry deps i).map (fun r => (i, r)))

/-- The error carried by a failed fetch outcome, if any. -/
def errOf (r : Except String SemVer) : Option String :=
  match r with
  | Except.error e => some e
  | Except.ok _ => none

/-- First `some` produced by `f` along a list. -/
def firstSome {α β : Type} (f : α → Option β) : List α → Option β
  | [] => none
  | a :: as =>
    match f a with
    | some b => some b
    | none => firstSome f as

/-- The first failure in completion order, which is the exception that
`asyncio.gather` re-raises. -/
def firstFailure (events : List (Nat × Except String SemVer)) : Option String :=
  firstSome (fun ev => errOf ev.2) events

/-- Evaluate `f` over a list, stopping at the first error (the behaviour of
sequencing fallible steps in spawn order). -/
def mapOrFirstError {α β : Type} (f : α → Except String β) :
    List α → Except String (List β)
  | [] => Except.ok []
  | a :: as =>
    match f a with
    | Except.error e => Except.error e
    | Except.ok b =>
      match mapOrFirstError f as with
      | Except.error e => Except.error e
      | Except.ok bs => Except.ok (b :: bs)

/-- `asyncio.gather(*requestors.values())` at `build_ansible_commands.py:55`:
if any task failed, the first exception in completion order propagates;
otherwise the results are returned in spawn (argument) order. -/
def gatherResult (registry : Registry) (deps : List (String × String))
    (sched : List Nat) : Except String (List SemVer) :=
  match firstFailure (completionEvents registry deps sched) with
  | some e => Except.error e
  | none => mapOrFirstError (fun p => registry p.1 p.2) deps

/-- `download_collections` (`build_ansible_commands.py:39-64`): spawn one
fetch per entry of `deps` (a dict iterated in insertion order), gather the
responses, and zip the requestor names with the responses to build the
name-to-resolved-version mapping. -/
def download_collections (registry : Registry) (deps : List (String × String))
    (sched : List Nat) : Except String (List (String × SemVer)) :=
  match gatherResult registry deps sched with
  | Except.error e => Except.error e
  | Except.ok responses => Except.ok (List.zip (deps.map Prod.fst) responses)

/-- A completion schedule is admissible for `n` tasks under pool size `k`
when it is a permutation of the task indices and task `j` can only finish
at position `p` if it has already started there, i.e. `j < p + k`:
with a semaphore of size `k`, task `j` starts only after `j + 1 - k`
earlier completions. -/
def Admissible (n k : Nat) (sched : List Nat) : Prop :=
  List.Perm sched (List.range n) ∧ ∀ pr ∈ sched.enum, pr.2 < pr.1 + k

instance (n k : Nat) (sched : List Nat) : Decidable (Admissible n k sched) :=
  inferInstanceAs (Decidable (List.Perm sched (List.range n) ∧
    ∀ pr ∈ sched.enum, pr.2 < pr.1 + k))

/-- One resolved fetch paired with its requestor name, as the reference
(sequential) semantics produces it. -/
def namedResolve (registry : Registry) (p : String × String) :
    Except String (String × SemVer) :=
  match registry p.1 p.2 with
  | Except.error e => Except.error e
  | Except.ok v => Except.ok (p.1, v)

/-- A version-range dependency `>= lower, < upper` declared by the
meta-package on one collection sdist. -/
structure DepRange where
  name : String
  lower : SemVer
  upper : SemVer
deriving DecidableEq, Repr

/-- Character-list comparison implementing Python string `<`. -/
def strLtChars : List Char → List Char → Bool
  | [], [] => false
  | [], _ :: _ => true
  | _ :: _, [] => false
  | a :: as, b :: bs =>
    if a.toNat < b.toNat then true
    else if b.toNat < a.toNat then false
    else strLtChars as bs

/-- Python string `<` on code points. -/
def strLtB (a b : String) : Bool :=
  strLtChars a.toList b.toList

/-- Insert one (name, version) pair into a name-sorted list. -/
def insertSorted (p : String × SemVer) :
    List (String × SemVer) → List (String × SemVer)
  | [] => [p]
  | q :: qs => if strLtB q.1 p.1 then q :: insertSorted p qs else p :: q :: qs

/-- Python `sorted(included_versions.items())`: the items sorted by name
(names are dict keys, hence unique, so the name decides the order). -/
def sortByName : List (String × SemVer) → List (String × SemVer)
  | [] => []
  | p :: ps => insertSorted p (sortByName ps)

/-- The dependency ranges the meta-package declares in
`build_multiple_command` (`build_ansible_commands.py:372-376`): one range
per resolved collection, iterated in sorted order, each of the form
`name>=version,<version.next_major()`. -/
def collection_deps (included : List (String × SemVer)) : List DepRange :=
  (sortByName included).map (fun p => DepRange.mk p.1 p.2 (SemVer.next_major p.2))

/-- `make_dist` (`build_ansible_commands.py:147-155`): after the external
sdist step the `dist` directory listing must hold exactly one file, which
is moved to `dest_dir`; any other count raises.  `distFiles` is the
`os.listdir(dist_dir)` result; the returned string is the moved file's
destination path. -/
def make_dist (distFiles : List String) (dest_dir : String) :
    Except String String :=
  if distFiles.length ≠ 1 then
    Except.error "python setup.py sdist should only have created one file"
  else
    Except.ok (dest_dir ++ "/" ++ distFiles.headI)

/-- `make_collection_dist` (`build_ansible_commands.py:297-317`): write the
collection boilerplate, run the external sdist step, then require exactly
one file in `dist` and move it to `dest_dir` (the boilerplate writes are
infallible collaborator calls and are not part of the returned value). -/
def make_collection_dist (name version package_dir dest_dir : String)
    (distFiles : List String) : Except String String :=
  if distFiles.length ≠ 1 then
    Except.error "python setup.py sdist should only have created one file"
  else
    Except.ok (dest_dir ++ "/" ++ distFiles.headI)

/-- The destructuring `dummy_, dummy_, name, version =
dir_name_only.split('-', 3)` at `build_ansible_commands.py:326`: succeeds
with the third and fourth fields exactly when the split yields four fields,
and raises `ValueError` otherwise. -/
def parseCollectionDirName (dir_name_only : String) :
    Except String (String × String) :=
  match pySplit dir_name_only (Char.ofNat 45) 3 with
  | [_, _, name, version] => Except.ok (name, version)
  | _ => Except.error "ValueError: not enough values to unpack"

/-- `make_collection_dists` (`build_ansible_commands.py:320-331`): for each
collection directory, parse name and version out of its basename and build
one sdist; the first raised error aborts the batch.  `distFilesOf` gives
the `dist` listing the external sdist step leaves in each directory. -/
def make_collection_dists (dest_dir : String) (collection_dirs : List String)
    (distFilesOf : String → List String) : Except String (List String) :=
  mapOrFirstError (fun collection_dir =>
    match parseCollectionDirName (basename collection_dir) with
    | Except.error e => Except.error e
    | Except.ok nv =>
      make_collection_dist nv.1 nv.2 collection_dir dest_dir
        (distFilesOf collection_dir)) collection_dirs

/-- Observable effects of a build command run, in program order. -/
inductive Event where
  | readBuildFile (path : String)
  | mkdir (path : String)
  | fetch (name : String)
  | getChangelog
  | installTogether (destDir : String)
  | installSeparately (baseDir : String)
  | makeCollectionDist (dir : String)
  | writeChangelog (dir : String)
  | writePortingGuide (dir : String)
  | writeBuildScript (dir : String)
  | writePythonBuildFiles (dir : String) (collectionDeps : List DepRange)
  | writeDebianDir (dir : String)
  | runSdist (dir : String)
  | moveDist (file : String) (destDir : String)
  | writeDepsFile (path : String)
  | saveChangelog
deriving DecidableEq, Repr

/-- Final result of a build command: a process exit code, or an uncaught
exception propagating out of the command. -/
inductive Outcome where
  | exit (code : Nat)
  | raised (msg : String)
deriving DecidableEq, Repr

/-- Parsed contents of the build file (`build_file.parse()`): the declared
ansible version string, the ansible-base version string, and the
name-to-version-specifier mapping in file order. -/
structure BuildFileData where
  build_ansible_version : String
  ansible_base_version : String
  deps : List (String × String)

/-- Inputs of one build command run, including the outcomes of the external
collaborators: the registry state, the pool completion schedule, the
results of `install_together` / `install_separately`, and the `dist`
directory listings left behind by the external sdist builds. -/
structure BuildInputs where
  ansible_version : PypiVer
  build_file : String
  dest_dir : String
  deps_file : String
  debian : Bool
  tmp_dir : String
  buildFileData : BuildFileData
  registry : Registry
  schedule : List Nat
  installResult : Except String Unit
  installSepResult : Except String (List String)
  sdistFiles : List String
  collectionSdistFiles : String → List String

/-- `build_single_command` (`build_ansible_commands.py:173-263`) as an
event-trace state machine: parse the build file, reject the run with exit
code 1 when `str(ansible_version)` does not start with the declared
version, then download, install together, write release notes and build
files into the package tree, build the combined sdist, and finally write
the deps file, save the changelog and write the release notes next to the
build file. -/
def build_single_command (inp : BuildInputs) : List Event × Outcome :=
  if py_startswith (pypiVerStr inp.ansible_version)
      inp.buildFileData.build_ansible_version then
    let download_dir := inp.tmp_dir ++ "/collections"
    let ev1 := [Event.readBuildFile inp.build_file, Event.mkdir download_dir] ++
      inp.buildFileData.deps.map (fun p => Event.fetch p.1)
    match download_collections inp.registry inp.buildFileData.deps inp.schedule with
    | Except.error e => (ev1, Outcome.raised e)
    | Except.ok _included =>
      let deps_dir := dirname inp.build_file
      let package_dir := inp.tmp_dir ++ "/ansible-" ++ pypiVerStr inp.ansible_version
      let acd := package_dir ++ "/ansible_collections"
      let ev2 := ev1 ++ [Event.getChangelog, Event.mkdir package_dir, Event.mkdir acd]
      match inp.installResult with
      | Except.error e => (ev2 ++ [Event.installTogether acd], Outcome.raised e)
      | Except.ok _ =>
        let ev3 := ev2 ++ [Event.installTogether acd,
          Event.writeChangelog package_dir, Event.writePortingGuide package_dir,
          Event.writeBuildScript package_dir,
          Event.writePythonBuildFiles package_dir []] ++
          (if inp.debian then [Event.writeDebianDir package_dir] else []) ++
          [Event.runSdist package_dir]
        match make_dist inp.sdistFiles inp.dest_dir with
        | Except.error e => (ev3, Outcome.raised e)
        | Except.ok moved =>
          (ev3 ++ [Event.moveDist moved inp.dest_dir,
            Event.writeDepsFile (inp.dest_dir ++ "/" ++ inp.deps_file),
            Event.saveChangelog,
            Event.writeChangelog deps_dir, Event.writePortingGuide deps_dir],
           Outcome.exit 0)
  else
    ([Event.readBuildFile inp.build_file], Outcome.exit 1)

/-- `build_multiple_command` (`build_ansible_commands.py:334-388`) as an
event-trace state machine: parse the build file, reject on the same
version-string check, then download, install the collections separately,
build one sdist per collection, build the thin meta-package whose python
build files declare one dependency range per resolved collection, and
finally write the deps file as the very last step. -/
def build_multiple_command (inp : BuildInputs) : List Event × Outcome :=
  if py_startswith (pypiVerStr inp.ansible_version)
      inp.buildFileData.build_ansible_version then
    let download_dir := inp.tmp_dir ++ "/collections"
    let ev1 := [Event.readBuildFile inp.build_file, Event.mkdir download_dir] ++
      inp.buildFileData.deps.map (fun p => Event.fetch p.1)
    match download_collections inp.registry inp.buildFileData.deps inp.schedule with
    | Except.error e => (ev1, Outcome.raised e)
    | Except.ok included =>
      match inp.installSepResult with
      | Except.error e =>
        (ev1 ++ [Event.installSeparately download_dir], Outcome.raised e)
      | Except.ok collection_dirs =>
        let ev2 := ev1 ++ [Event.installSeparately download_dir] ++
          collection_dirs.map Event.makeCollectionDist
        match make_collection_dists inp.dest_dir collection_dirs
            inp.collectionSdistFiles with
        | Except.error e => (ev2, Outcome.raised e)
        | Except.ok _ =>
          let package_dir :=
            inp.tmp_dir ++ "/ansible-" ++ pypiVerStr inp.ansible_version
          let acd := package_dir ++ "/ansible_collections"
          let ev3 := ev2 ++ [Event.mkdir package_dir, Event.mkdir acd,
            Event.writeBuildScript package_dir,
            Event.writePythonBuildFiles package_dir (collection_deps included),
            Event.runSdist package_dir]
          match make_dist inp.sdistFiles inp.dest_dir with
          | Except.error e => (ev3, Outcome.raised e)
          | Except.ok moved =>
            (ev3 ++ [Event.moveDist moved inp.dest_dir,
              Event.writeDepsFile (inp.dest_dir ++ "/" ++ inp.deps_file)],
             Outcome.exit 0)
  else
    ([Event.readBuildFile inp.build_file], Outcome.exit 1)

/-! Concrete example inputs used by witnesses and counterexamples. -/

/-- A registry state resolving two collections. -/
def exRegistry : Registry := fun name _spec =>
  if name = "community.general" then Except.ok (SemVer.mk 1 0 0)
  else if name = "ansible.posix" then Except.ok (SemVer.mk 2 3 4)
  else Except.error ("no collection named " ++ name)

/-- A registry state where the second collection fails to fetch. -/
def exRegistryFail : Registry := fun name _spec =>
  if name = "community.general" then Except.ok (SemVer.mk 1 0 0)
  else Except.error "HTTP 404"

/-- A two-request build-file dependency set, in insertion order. -/
def exDeps : List (String × String) :=
  [("community.general", "*"), ("ansible.posix", "*")]

/-- The mapping `download_collections` resolves for `exDeps` against
`exRegistry`. -/
def exResolved : List (String × SemVer) :=
  [("community.general", SemVer.mk 1 0 0), ("ansible.posix", SemVer.mk 2 3 4)]

/-- The directories `install_separately` creates for the two collections. -/
def exCollectionDirs : List String :=
  ["/tmp/x/collections/ansible-collections-community.general-1.0.0",
   "/tmp/x/collections/ansible-collections-ansible.posix-2.3.4"]

/-- A fully successful run of the combined strategy: the declared version
"2.11" is a prefix of "2.11.0", every fetch succeeds, the install
succeeds, and the external sdist leaves exactly one file. -/
def exInpOk : BuildInputs where
  ansible_version := PypiVer.mk 2 11 0
  build_file := "/src/ansible.build"
  dest_dir := "/dest"
  deps_file := "ansible.deps"
  debian := false
  tmp_dir := "/tmp/x"
  buildFileData := BuildFileData.mk "2.11" "2.11.0" exDeps
  registry := exRegistry
  schedule := [1, 0]
  installResult := Except.ok ()
  installSepResult := Except.ok exCollectionDirs
  sdistFiles := ["ansible-2.11.0.tar.gz"]
  collectionSdistFiles := fun _ => ["collection.tar.gz"]

/-- The same successful run but with the build file declaring "2.1": the
major.minor of the declared version (2.1) differs from the version being
built (2.11), yet the string-prefix check passes. -/
def exInpBad : BuildInputs where
  ansible_version := PypiVer.mk 2 11 0
  build_file := "/src/ansible.build"
  dest_dir := "/dest"
  deps_file := "ansible.deps"
  debian := false
  tmp_dir := "/tmp/x"
  buildFileData := BuildFileData.mk "2.1" "2.11.0" exDeps
  registry := exRegistry
  schedule := [1, 0]
  installResult := Except.ok ()
  installSepResult := Except.ok exCollectionDirs
  sdistFiles := ["ansible-2.11.0.tar.gz"]
  collectionSdistFiles := fun _ => ["collection.tar.gz"]

/-- An input whose declared version "2.12" is not a string prefix of
"2.11.0", so both commands must stop at the version check. -/
def exInpMismatch : BuildInputs where
  ansible_version := PypiVer.mk 2 11 0
  build_file := "/src/ansible.build"
  dest_dir := "/dest"
  deps_file := "ansible.deps"
  debian := false
  tmp_dir := "/tmp/x"
  buildFileData := BuildFileData.mk "2.12" "2.12.0" exDeps
  registry := exRegistry
  schedule := [1, 0]
  installResult := Except.ok ()
  installSepResult := Except.ok exCollectionDirs
  sdistFiles := ["ansible-2.12.0.tar.gz"]
  collectionSdistFiles := fun _ => ["collection.tar.gz"]

/-! Helper lemmas about the download phase. -/

theorem firstSome_eq_none_iff {α β : Type} (f : α → Option β) :
    ∀ l : List α, firstSome f l = none ↔ ∀ a ∈ l, f a = none
  | [] => by simp [firstSome]
  | a :: as => by
    cases hfa : f a with
    | some b => simp [firstSome, hfa]
    | none => simp [firstSome, hfa, firstSome_eq_none_iff f as]

theorem firstSome_eq_some_split {α β : Type} (f : α → Option β) :
    ∀ (l : List α) (b : β), firstSome f l = some b →
      ∃ pre a post, l = pre ++ a :: post ∧ f a = some b ∧ ∀ x ∈ pre, f x = none
  | [], b, h => by simp [firstSome] at h
  | a :: as, b, h => by
    cases hfa : f a with
    | some b2 =>
      simp only [firstSome, hfa] at h
      refine ⟨[], a, as, rfl, ?_, by simp⟩
      rw [hfa, h]
    | none =>
      simp only [firstSome, hfa] at h
      obtain ⟨pre, x, post, hsplit, hx, hpre⟩ := firstSome_eq_some_split f as b h
      refine ⟨a :: pre, x, post, by rw [hsplit, List.cons_append], hx, ?_⟩
      intro y hy
      rcases List.mem_cons.mp hy with rfl | hy2
      · exact hfa
      · exact hpre y hy2

theorem mapOrFirstError_ok_forall {α β : Type} {f : α → Except String β} :
    ∀ {l : List α} {bs : List β}, mapOrFirstError f l = Except.ok bs →
      ∀ a ∈ l, ∃ b, f a = Except.ok b := by
  intro l
  induction l with
  | nil => intro bs _ a ha; simp at ha
  | cons x xs ih =>
    intro bs h a ha
    rw [mapOrFirstError] at h
    cases hfx : f x with
    | error e => rw [hfx] at h; cases h
    | ok b =>
      rw [hfx] at h
      cases hrec : mapOrFirstError f xs with
      | error e => rw [hrec] at h; cases h
      | ok bs2 =>
        rcases List.mem_cons.mp ha with rfl | ha2
        · exact ⟨b, hfx⟩
        · exact ih hrec a ha2

theorem mapOrFirstError_error_of_mem {α β : Type} {f : α → Except String β} :
    ∀ {l : List α} {a : α}, a ∈ l → (∃ e, f a = Except.error e) →
      ∃ e2, mapOrFirstError f l = Except.error e2 := by
  intro l
  induction l with
  | nil => intro a ha; simp at ha
  | cons x xs ih =>
    intro a ha ⟨e, he⟩
    rw [mapOrFirstError]
    cases hfx : f x with
    | error e2 => exact ⟨e2, rfl⟩
    | ok b =>
      rcases List.mem_cons.mp ha with rfl | ha2
      · rw [he] at hfx; cases hfx
      · obtain ⟨e2, h2⟩ := ih ha2 ⟨e, he⟩
        rw [h2]
        exact ⟨e2, rfl⟩

theorem mapOrFirstError_all_ok (registry : Registry) :
    ∀ (deps : List (String × String)),
      (∀ p ∈ deps, ∃ v, registry p.1 p.2 = Except.ok v) →
      ∃ vs, mapOrFirstError (fun p => registry p.1 p.2) deps = Except.ok vs ∧
        mapOrFirstError (namedResolve registry) deps =
          Except.ok (List.zip (deps.map Prod.fst) vs)
  | [], _ => ⟨[], rfl, rfl⟩
  | p :: ps, h => by
    obtain ⟨v, hv⟩ := h p (List.mem_cons_self p ps)
    obtain ⟨vs, h1, h2⟩ :=
      mapOrFirstError_all_ok registry ps (fun q hq => h q (List.mem_cons_of_mem p hq))
    refine ⟨v :: vs, ?_, ?_⟩
    · rw [mapOrFirstError, hv, h1]
    · rw [mapOrFirstError, namedResolve, hv, h2]
      simp

theorem mapOrFirstError_named_fst (registry : Registry) :
    ∀ {deps : List (String × String)} {m : List (String × SemVer)},
      mapOrFirstError (namedResolve registry) deps = Except.ok m →
      m.map Prod.fst = deps.map Prod.fst := by
  intro deps
  induction deps with
  | nil => intro m h; rw [mapOrFirstError] at h; cases h; rfl
  | cons p ps ih =>
    intro m h
    rw [mapOrFirstError, namedResolve] at h
    cases hr : registry p.1 p.2 with
    | error e => rw [hr] at h; cases h
    | ok v =>
      rw [hr] at h
      cases hrec : mapOrFirstError (namedResolve registry) ps with
      | error e => rw [hrec] at h; cases h
      | ok ms =>
        rw [hrec] at h
        cases h
        simp [ih hrec]

theorem mapOrFirstError_named_assoc (registry : Registry) :
    ∀ {deps : List (String × String)} {m : List (String × SemVer)},
      mapOrFirstError (namedResolve registry) deps = Except.ok m →
      ∀ n v, (n, v) ∈ m → ∃ s, (n, s) ∈ deps ∧ registry n s = Except.ok v := by
  intro deps
  induction deps with
  | nil =>
    intro m h n v hm
    rw [mapOrFirstError] at h; cases h; simp at hm
  | cons p ps ih =>
    intro m h n v hm
    rw [mapOrFirstError, namedResolve] at h
    cases hr : registry p.1 p.2 with
    | error e => rw [hr] at h; cases h
    | ok w =>
      rw [hr] at h
      cases hrec : mapOrFirstError (namedResolve registry) ps with
      | error e => rw [hrec] at h; cases h
      | ok ms =>
        rw [hrec] at h
        cases h
        rcases List.mem_cons.mp hm with heq | hm2
        · cases heq
          exact ⟨p.2, List.mem_cons_self p ps, hr⟩
        · obtain ⟨s, hs, hrs⟩ := ih hrec n v hm2
          exact ⟨s, List.mem_cons_of_mem p hs, hrs⟩

theorem completionEvents_mem (registry : Registry) (deps : List (String × String))
    (sched : List Nat) (ev : Nat × Except String SemVer) :
    ev ∈ completionEvents registry deps sched ↔
      ∃ i ∈ sched, ∃ p, deps[i]? = some p ∧ ev = (i, registry p.1 p.2) := by
  rw [completionEvents]
  rw [List.mem_filterMap]
  constructor
  · rintro ⟨i, hi, hmap⟩
    rw [taskResult] at hmap
    cases hd : deps[i]? with
    | none => rw [hd] at hmap; simp at hmap
    | some p =>
      rw [hd] at hmap
      simp at hmap
      exact ⟨i, hi, p, hd, hmap.symm⟩
  · rintro ⟨i, hi, p, hd, rfl⟩
    refine ⟨i, hi, ?_⟩
    rw [taskResult, hd]
    rfl

theorem noFailure_iff_allOk (registry : Registry) (deps : List (String × String))
    (sched : List Nat) (hperm : List.Perm sched (List.range deps.length)) :
    firstFailure (completionEvents registry deps sched) = none ↔
      ∀ p ∈ deps, ∃ v, registry p.1 p.2 = Except.ok v := by
  rw [firstFailure, firstSome_eq_none_iff]
  constructor
  · intro h p hp
    obtain ⟨i, hi⟩ := List.mem_iff_getElem?.mp hp
    have hilt : i < deps.length := (List.getElem?_eq_some.mp hi).1
    have hisched : i ∈ sched := hperm.mem_iff.mpr (List.mem_range.mpr hilt)
    have hev : (i, registry p.1 p.2) ∈ completionEvents registry deps sched :=
      (completionEvents_mem registry deps sched _).mpr ⟨i, hisched, p, hi, rfl⟩
    have hnone := h _ hev
    cases hr : registry p.1 p.2 with
    | error e => rw [hr] at hnone; simp [errOf] at hnone
    | ok v => exact ⟨v, rfl⟩
  · intro h ev hev
    obtain ⟨i, _, p, hd, rfl⟩ := (completionEvents_mem registry deps sched ev).mp hev
    obtain ⟨v, hv⟩ := h p (List.getElem?_mem hd)
    simp [errOf, hv]

theorem completionEvents_length (registry : Registry) (deps : List (String × String)) :
    ∀ sched : List Nat, (∀ i ∈ sched, i < deps.length) →
      (completionEvents registry deps sched).length = sched.length
  | [], _ => rfl
  | i :: is, h => by
    have hi : i < deps.length := h i (List.mem_cons_self i is)
    have hd : deps[i]? = some deps[i] := List.getElem?_eq_getElem hi
    rw [completionEvents, List.filterMap_cons]
    rw [taskResult, hd]
    simp only [Option.map_some']
    rw [List.length_cons]
    have := completionEvents_length registry deps is
      (fun j hj => h j (List.mem_cons_of_mem i hj))
    rw [completionEvents] at this
    rw [this]
    rfl

theorem download_ok_iff (registry : Registry) (deps : List (String × String))
    (sched : List Nat) (hperm : List.Perm sched (List.range deps.length))
    (m : List (String × SemVer)) :
    download_collections registry deps sched = Except.ok m ↔
      mapOrFirstError (namedResolve registry) deps = Except.ok m := by
  rw [download_collections, gatherResult]
  cases hff : firstFailure (completionEvents registry deps sched) with
  | some e =>
    simp only []
    constructor
    · intro h; cases h
    · intro h
      have hall : ∀ p ∈ deps, ∃ v, registry p.1 p.2 = Except.ok v := by
        intro p hp
        obtain ⟨b, hb⟩ := mapOrFirstError_ok_forall h p hp
        rw [namedResolve] at hb
        cases hr : registry p.1 p.2 with
        | error e2 => rw [hr] at hb; cases hb
        | ok v => exact ⟨v, rfl⟩
      rw [(noFailure_iff_allOk registry deps sched hperm).mpr hall] at hff
      cases hff
  | none =>
    have hall := (noFailure_iff_allOk registry deps sched hperm).mp hff
    obtain ⟨vs, h1, h2⟩ := mapOrFirstError_all_ok registry deps hall
    rw [h1, h2]

/-- C1: For every input mapping of collection names to version constraints,
`download_collections` returns a mapping whose keys are exactly the input
names in the input's insertion order, each name is associated with the
version resolved for that same name (never another request's version), and
the result is identical on every run regardless of the completion order of
the concurrent fetch tasks. -/
theorem download_collections_deterministic (registry : Registry)
    (deps : List (String × String)) (sched : List Nat)
    (m : List (String × SemVer))
    (hperm : List.Perm sched (List.range deps.length))
    (hm : download_collections registry deps sched = Except.ok m) :
    m.map Prod.fst = deps.map Prod.fst ∧
    (∀ n v, (n, v) ∈ m → ∃ s, (n, s) ∈ deps ∧ registry n s = Except.ok v) ∧
    (∀ sched2 : List Nat, List.Perm sched2 (List.range deps.length) →
      download_collections registry deps sched2 = Except.ok m) := by
  have hseq := (download_ok_iff registry deps sched hperm m).mp hm
  refine ⟨mapOrFirstError_named_fst registry hseq,
    mapOrFirstError_named_assoc registry hseq, ?_⟩
  intro sched2 hperm2
  exact (download_ok_iff registry deps sched2 hperm2 m).mpr hseq

theorem download_collections_deterministic_witness :
    List.Perm [1, 0] (List.range exDeps.length) ∧
    download_collections exRegistry exDeps [1, 0] = Except.ok exResolved ∧
    exResolved.map Prod.fst = exDeps.map Prod.fst ∧
    download_collections exRegistry exDeps [0, 1] = Except.ok exResolved := by
  have h := download_collections_deterministic exRegistry exDeps [1, 0]
    exResolved (by decide) (by rfl)
  exact ⟨by decide, by rfl, h.1, h.2.2 [0, 1] (by decide)⟩

/-- C2: For every request set and any two concurrency limits k1 ≠ k2 (the
pool size taken from the library context's thread_max), runs of
`download_collections` whose completion schedules are admissible for pool
sizes k1 and k2 respectively produce identical name-to-version mappings
against the same registry state. -/
theorem download_collections_pool_independent (registry : Registry)
    (deps : List (String × String)) (k1 k2 : Nat) (s1 s2 : List Nat)
    (m : List (String × SemVer)) (hk : k1 ≠ k2)
    (h1 : Admissible deps.length k1 s1) (h2 : Admissible deps.length k2 s2)
    (hm : download_collections registry deps s1 = Except.ok m) :
    download_collections registry deps s2 = Except.ok m := by
  have hseq := (download_ok_iff registry deps s1 h1.1 m).mp hm
  exact (download_ok_iff registry deps s2 h2.1 m).mpr hseq

theorem download_collections_pool_independent_witness :
    (1 : Nat) ≠ 2 ∧
    Admissible exDeps.length 1 [0, 1] ∧
    Admissible exDeps.length 2 [1, 0] ∧
    download_collections exRegistry exDeps [0, 1] = Except.ok exResolved ∧
    download_collections exRegistry exDeps [1, 0] = Except.ok exResolved := by
  refine ⟨by decide, by decide, by decide, by rfl, ?_⟩
  exact download_collections_pool_independent exRegistry exDeps 1 2 [0, 1] [1, 0]
    exResolved (by decide) (by decide) (by decide) (by rfl)

/-- C3: If any single fetch task inside `download_collections` fails, the
whole operation fails by propagating the error of the first task to fail
in completion order, no partial name-to-version mapping is returned, and
every sibling fetch task still runs to completion (the completion log
covers every spawned task). -/
theorem download_collections_fail_together (registry : Registry)
    (deps : List (String × String)) (sched : List Nat)
    (hperm : List.Perm sched (List.range deps.length))
    (hfail : ∃ p ∈ deps, ∃ e, registry p.1 p.2 = Except.error e) :
    (∃ e, download_collections registry deps sched = Except.error e ∧
      ∃ pre i post, completionEvents registry deps sched =
          pre ++ (i, Except.error e) :: post ∧
        ∀ q ∈ pre, ∃ v, q.2 = Except.ok v) ∧
    (∀ m, download_collections registry deps sched ≠ Except.ok m) ∧
    (completionEvents registry deps sched).length = deps.length := by
  have hlen : (completionEvents registry deps sched).length = deps.length := by
    rw [completionEvents_length registry deps sched
      (fun i hi => List.mem_range.mp (hperm.mem_iff.mp hi))]
    rw [hperm.length_eq, List.length_range]
  cases hff : firstFailure (completionEvents registry deps sched) with
  | none =>
    exfalso
    obtain ⟨p, hp, e, he⟩ := hfail
    obtain ⟨v, hv⟩ := (noFailure_iff_allOk registry deps sched hperm).mp hff p hp
    rw [hv] at he
    cases he
  | some e =>
    have hdl : download_collections registry deps sched = Except.error e := by
      rw [download_collections, gatherResult, hff]
    have hff2 : firstSome (fun ev : Nat × Except String SemVer => errOf ev.2)
        (completionEvents registry deps sched) = some e := hff
    obtain ⟨pre, ev, post, hsplit, hev, hpre⟩ :=
      firstSome_eq_some_split (fun ev : Nat × Except String SemVer => errOf ev.2)
        (completionEvents registry deps sched) e hff2
    replace hev : errOf ev.2 = some e := hev
    refine ⟨⟨e, hdl, pre, ev.1, post, ?_, ?_⟩, ?_, hlen⟩
    · have hev2 : ev.2 = Except.error e := by
        cases hr : ev.2 with
        | error e2 => rw [hr] at hev; simp [errOf] at hev; rw [hev]
        | ok v => rw [hr] at hev; simp [errOf] at hev
      rw [hsplit]
      congr 1
      rw [← hev2]
    · intro q hq
      replace hpre : errOf q.2 = none := hpre q hq
      cases hr : q.2 with
      | error e2 => rw [hr] at hpre; simp [errOf] at hpre
      | ok v => exact ⟨v, rfl⟩
    · intro m hcon
      rw [hdl] at hcon
      cases hcon

theorem download_collections_fail_together_witness :
    List.Perm [1, 0] (List.range exDeps.length) ∧
    (∃ p ∈ exDeps, ∃ e, exRegistryFail p.1 p.2 = Except.error e) ∧
    ((∃ e, download_collections exRegistryFail exDeps [1, 0] = Except.error e ∧
      ∃ pre i post, completionEvents exRegistryFail exDeps [1, 0] =
          pre ++ (i, Except.error e) :: post ∧
        ∀ q ∈ pre, ∃ v, q.2 = Except.ok v) ∧
    (∀ m, download_collections exRegistryFail exDeps [1, 0] ≠ Except.ok m) ∧
    (completionEvents exRegistryFail exDeps [1, 0]).length = exDeps.length) := by
  have hfail : ∃ p ∈ exDeps, ∃ e, exRegistryFail p.1 p.2 = Except.error e :=
    ⟨("ansible.posix", "*"), by decide, "HTTP 404", by rfl⟩
  refine ⟨by decide, hfail, ?_⟩
  exact download_collections_fail_together exRegistryFail exDeps [1, 0]
    (by decide) hfail

/-! Helper lemmas about the limited split used on collection directory names. -/

theorem splitLimitCh_ne_nil (sep : Char) :
    ∀ (cs : List Char) (k : Nat), splitLimitCh sep cs k ≠ []
  | [], k => by simp [splitLimitCh]
  | c :: cs, k => by
    by_cases h : c = sep ∧ k ≠ 0
    · simp [splitLimitCh, h]
    · rcases hrec : splitLimitCh sep cs k with _ | ⟨f, fs⟩
      · exact absurd hrec (splitLimitCh_ne_nil sep cs k)
      · simp [splitLimitCh, h, hrec]

theorem splitLimitCh_length (sep : Char) :
    ∀ (cs : List Char) (k : Nat),
      (splitLimitCh sep cs k).length = min (countCh sep cs) k + 1
  | [], k => by simp [splitLimitCh, countCh]
  | c :: cs, k => by
    by_cases h : c = sep ∧ k ≠ 0
    · obtain ⟨hc, hk⟩ := h
      obtain ⟨k2, rfl⟩ := Nat.exists_eq_succ_of_ne_zero hk
      have ih := splitLimitCh_length sep cs k2
      simp only [splitLimitCh, if_pos (And.intro hc hk), List.length_cons]
      rw [Nat.succ_sub_one, ih]
      simp only [countCh, if_pos hc]
      omega
    · have hnil := splitLimitCh_ne_nil sep cs k
      rcases hrec : splitLimitCh sep cs k with _ | ⟨f, fs⟩
      · exact absurd hrec hnil
      have ih := splitLimitCh_length sep cs k
      rw [hrec] at ih
      simp only [splitLimitCh, if_neg h, hrec, List.length_cons]
      rcases not_and_or.mp h with hc | hk0
      · simp only [countCh, if_neg hc]
        simp only [List.length_cons] at ih
        omega
      · have hk : k = 0 := not_not.mp hk0
        subst hk
        simp only [List.length_cons] at ih
        by_cases hcs : c = sep
        · simp only [countCh, if_pos hcs]
          omega
        · simp only [countCh, if_neg hcs]
          omega

theorem pySplit_length (s : String) (sep : Char) (k : Nat) :
    (pySplit s sep k).length = min (countCh sep s.toList) k + 1 := by
  rw [pySplit, List.length_map, splitLimitCh_length]

/-- C4: The archive-assembly step (`make_dist` for the combined package,
`make_collection_dist` per collection) fails whenever the external sdist
build produces zero or more than one output file in the dist directory,
and when exactly one file is produced it succeeds and moves that single
file into the destination directory. -/
theorem sdist_exactly_one_output (files : List String)
    (dest name version pkg : String) :
    (files.length ≠ 1 →
      (∃ e, make_dist files dest = Except.error e) ∧
      (∃ e, make_collection_dist name version pkg dest files = Except.error e)) ∧
    (∀ f, files = [f] →
      make_dist files dest = Except.ok (dest ++ "/" ++ f) ∧
      make_collection_dist name version pkg dest files =
        Except.ok (dest ++ "/" ++ f)) := by
  constructor
  · intro hne
    rw [make_dist, make_collection_dist, if_pos hne]
    exact ⟨⟨_, rfl⟩, ⟨_, rfl⟩⟩
  · rintro f rfl
    rw [make_dist, make_collection_dist]
    simp [List.headI]

theorem sdist_exactly_one_output_witness :
    (∃ e, make_dist ["a.tar.gz", "b.tar.gz"] "/dest" = Except.error e) ∧
    (∃ e, make_dist [] "/dest" = Except.error e) ∧
    make_dist ["only.tar.gz"] "/dest" = Except.ok "/dest/only.tar.gz" ∧
    make_collection_dist "community.general" "1.0.0" "/pkg" "/dest"
      ["only.tar.gz"] = Except.ok "/dest/only.tar.gz" := by
  have h2 := (sdist_exactly_one_output ["a.tar.gz", "b.tar.gz"] "/dest"
    "community.general" "1.0.0" "/pkg").1 (by decide)
  have h0 := (sdist_exactly_one_output [] "/dest"
    "community.general" "1.0.0" "/pkg").1 (by decide)
  have h1 := (sdist_exactly_one_output ["only.tar.gz"] "/dest"
    "community.general" "1.0.0" "/pkg").2 "only.tar.gz" rfl
  exact ⟨h2.1, h0.1, h1.1, h1.2⟩

/-- C10: `make_collection_dists` requires every collection directory
basename to contain at least three dash separators: it parses the
collection name and version as the third and fourth dash-separated fields
of the basename (splitting at most three times), and raises an error for
any basename with fewer than three dashes. -/
theorem collection_dir_name_parsing :
    (∀ s : String, countCh (Char.ofNat 45) s.toList < 3 →
      ∃ e, parseCollectionDirName s = Except.error e) ∧
    (∀ s : String, 3 ≤ countCh (Char.ofNat 45) s.toList →
      ∃ a b name version, pySplit s (Char.ofNat 45) 3 = [a, b, name, version] ∧
        parseCollectionDirName s = Except.ok (name, version)) ∧
    (∀ (dest : String) (distOf : String → List String) (dirs : List String)
        (d : String), d ∈ dirs →
      countCh (Char.ofNat 45) (basename d).toList < 3 →
      ∃ e, make_collection_dists dest dirs distOf = Except.error e) := by
  have hshort : ∀ s : String, countCh (Char.ofNat 45) s.toList < 3 →
      ∃ e, parseCollectionDirName s = Except.error e := by
    intro s hc
    have hlen : (pySplit s (Char.ofNat 45) 3).length < 4 := by
      rw [pySplit_length]
      omega
    rw [parseCollectionDirName]
    rcases hsp : pySplit s (Char.ofNat 45) 3 with
      _ | ⟨a, _ | ⟨b, _ | ⟨c3, _ | ⟨d, rest⟩⟩⟩⟩
    · exact ⟨_, rfl⟩
    · exact ⟨_, rfl⟩
    · exact ⟨_, rfl⟩
    · exact ⟨_, rfl⟩
    · exfalso
      rw [hsp] at hlen
      simp at hlen
      omega
  refine ⟨hshort, ?_, ?_⟩
  · intro s hc
    have hlen : (pySplit s (Char.ofNat 45) 3).length = 4 := by
      rw [pySplit_length]
      omega
    rcases hsp : pySplit s (Char.ofNat 45) 3 with
      _ | ⟨a, _ | ⟨b, _ | ⟨c3, _ | ⟨d, _ | ⟨e5, rest⟩⟩⟩⟩⟩ <;>
      rw [hsp] at hlen <;> simp at hlen
    refine ⟨a, b, c3, d, rfl, ?_⟩
    rw [parseCollectionDirName, hsp]
  · intro dest distOf dirs d hd hc
    obtain ⟨e, he⟩ := hshort (basename d) hc
    apply mapOrFirstError_error_of_mem hd
    rw [he]
    exact ⟨e, rfl⟩

theorem collection_dir_name_parsing_witness :
    (∃ e, parseCollectionDirName "community.general-1.0.0" = Except.error e) ∧
    (∃ a b name version,
      pySplit "ansible-collections-community.general-1.0.0" (Char.ofNat 45) 3 =
        [a, b, name, version] ∧
      parseCollectionDirName "ansible-collections-community.general-1.0.0" =
        Except.ok (name, version)) ∧
    (∃ e, make_collection_dists "/dest"
      ["/tmp/x/collections/bad.name"] (fun _ => ["one.tar.gz"]) =
        Except.error e) := by
  refine ⟨collection_dir_name_parsing.1 "community.general-1.0.0" (by decide),
    collection_dir_name_parsing.2.1 "ansible-collections-community.general-1.0.0"
      (by decide), ?_⟩
  exact collection_dir_name_parsing.2.2 "/dest" (fun _ => ["one.tar.gz"])
    ["/tmp/x/collections/bad.name"] "/tmp/x/collections/bad.name"
    (by decide) (by decide)

/-! Helper lemmas about the name sort and about event traces. -/

theorem insertSorted_perm (p : String × SemVer) :
    ∀ l : List (String × SemVer), List.Perm (insertSorted p l) (p :: l)
  | [] => List.Perm.refl _
  | q :: qs => by
    rw [insertSorted]
    by_cases h : strLtB q.1 p.1 = true
    · rw [if_pos h]
      exact ((insertSorted_perm p qs).cons q).trans (List.Perm.swap p q qs)
    · rw [if_neg h]

theorem sortByName_perm : ∀ l : List (String × SemVer), List.Perm (sortByName l) l
  | [] => List.Perm.refl _
  | p :: ps => (insertSorted_perm p (sortByName ps)).trans ((sortByName_perm ps).cons p)

theorem getLast?_append_pair {α : Type} (l : List α) (a b : α) :
    (l ++ [a, b]).getLast? = some b := by
  rw [show l ++ [a, b] = (l ++ [a]) ++ [b] by simp, List.getLast?_concat]

theorem getLast?_suffix {α : Type} (l : List α) {l2 : List α} {b : α}
    (h : l2.getLast? = some b) : (l ++ l2).getLast? = some b := by
  have hne : l2 ≠ [] := by intro hnil; rw [hnil] at h; cases h
  rw [List.getLast?_append_of_ne_nil l hne]
  exact h

theorem getLast?_cons_of_l {α : Type} (a : α) {l : List α} {b : α}
    (h : l.getLast? = some b) : (a :: l).getLast? = some b := by
  have hne : l ≠ [] := by intro hnil; rw [hnil] at h; cases h
  rw [show a :: l = [a] ++ l from rfl, List.getLast?_append_of_ne_nil [a] hne]
  exact h

/-- C6: In the per-artifact strategy (`build_multiple_command`), the
meta-package's python build files declare, for every resolved collection,
a version-range dependency of exactly the form `>=` the resolved version
and `<` the resolved version's next major version, with one such range per
resolved collection. -/
theorem build_multiple_meta_dependency_ranges (inp : BuildInputs)
    (m : List (String × SemVer))
    (hm : download_collections inp.registry inp.buildFileData.deps inp.schedule =
      Except.ok m)
    (h0 : (build_multiple_command inp).2 = Outcome.exit 0) :
    Event.writePythonBuildFiles
        (inp.tmp_dir ++ "/ansible-" ++ pypiVerStr inp.ansible_version)
        (collection_deps m) ∈ (build_multiple_command inp).1 ∧
    List.Perm (collection_deps m)
      (m.map (fun p => DepRange.mk p.1 p.2 (SemVer.next_major p.2))) ∧
    (∀ r ∈ collection_deps m, r.upper = SemVer.next_major r.lower) ∧
    (collection_deps m).length = m.length := by
  have hperm : List.Perm (collection_deps m)
      (m.map (fun p => DepRange.mk p.1 p.2 (SemVer.next_major p.2))) :=
    (sortByName_perm m).map _
  have hupper : ∀ r ∈ collection_deps m, r.upper = SemVer.next_major r.lower := by
    intro r hr
    rw [collection_deps] at hr
    obtain ⟨p, _, rfl⟩ := List.mem_map.mp hr
    rfl
  have hlen : (collection_deps m).length = m.length := by
    rw [hperm.length_eq, List.length_map]
  refine ⟨?_, hperm, hupper, hlen⟩
  by_cases hchk : py_startswith (pypiVerStr inp.ansible_version)
      inp.buildFileData.build_ansible_version = true
  · rcases hsep : inp.installSepResult with e | dirs
    · simp [build_multiple_command, hchk, hm, hsep] at h0
    · rcases hmcd : make_collection_dists inp.dest_dir dirs
          inp.collectionSdistFiles with e | outs
      · simp [build_multiple_command, hchk, hm, hsep, hmcd] at h0
      · rcases hmd : make_dist inp.sdistFiles inp.dest_dir with e | moved
        · simp [build_multiple_command, hchk, hm, hsep, hmcd, hmd] at h0
        · simp [build_multiple_command, hchk, hm, hsep, hmcd, hmd]
  · simp [build_multiple_command, hchk] at h0

theorem build_multiple_meta_dependency_ranges_witness :
    download_collections exInpOk.registry exInpOk.buildFileData.deps
      exInpOk.schedule = Except.ok exResolved ∧
    (build_multiple_command exInpOk).2 = Outcome.exit 0 ∧
    Event.writePythonBuildFiles
        (exInpOk.tmp_dir ++ "/ansible-" ++ pypiVerStr exInpOk.ansible_version)
        (collection_deps exResolved) ∈ (build_multiple_command exInpOk).1 ∧
    collection_deps exResolved =
      [DepRange.mk "ansible.posix" (SemVer.mk 2 3 4) (SemVer.mk 3 0 0),
       DepRange.mk "community.general" (SemVer.mk 1 0 0) (SemVer.mk 2 0 0)] := by
  have h := build_multiple_meta_dependency_ranges exInpOk exResolved
    (by rfl) (by rfl)
  exact ⟨by rfl, by rfl, h.1, by rfl⟩

/-- C7 (amended): In both build strategies the dependency-manifest file is
written only in a run in which every download, install and assembly step
succeeded (so no manifest is written when any earlier step raises), and in
the per-artifact strategy it is the last step of the build; in the
combined strategy it is followed by saving the changelog and writing the
release-notes files next to the build file. -/
theorem deps_file_written_only_on_success :
    (∀ (inp : BuildInputs) (f : String),
      Event.writeDepsFile f ∈ (build_single_command inp).1 →
      (build_single_command inp).2 = Outcome.exit 0) ∧
    (∀ (inp : BuildInputs) (f : String),
      Event.writeDepsFile f ∈ (build_multiple_command inp).1 →
      (build_multiple_command inp).2 = Outcome.exit 0) ∧
    (∀ inp : BuildInputs, (build_multiple_command inp).2 = Outcome.exit 0 →
      (build_multiple_command inp).1.getLast? =
        some (Event.writeDepsFile (inp.dest_dir ++ "/" ++ inp.deps_file))) := by
  refine ⟨?_, ?_, ?_⟩
  · intro inp f hmem
    by_cases hchk : py_startswith (pypiVerStr inp.ansible_version)
        inp.buildFileData.build_ansible_version = true
    · rcases hdl : download_collections inp.registry inp.buildFileData.deps
          inp.schedule with e | inc
      · simp [build_single_command, hchk, hdl] at hmem
      · rcases hins : inp.installResult with e | u
        · simp [build_single_command, hchk, hdl, hins] at hmem
        · rcases hmd : make_dist inp.sdistFiles inp.dest_dir with e | moved
          · by_cases hdeb : inp.debian = true <;>
              simp [build_single_command, hchk, hdl, hins, hmd, hdeb] at hmem
          · simp [build_single_command, hchk, hdl, hins, hmd]
    · simp [build_single_command, hchk] at hmem
  · intro inp f hmem
    by_cases hchk : py_startswith (pypiVerStr inp.ansible_version)
        inp.buildFileData.build_ansible_version = true
    · rcases hdl : download_collections inp.registry inp.buildFileData.deps
          inp.schedule with e | inc
      · simp [build_multiple_command, hchk, hdl] at hmem
      · rcases hsep : inp.installSepResult with e | dirs
        · simp [build_multiple_command, hchk, hdl, hsep] at hmem
        · rcases hmcd : make_collection_dists inp.dest_dir dirs
              inp.collectionSdistFiles with e | outs
          · simp [build_multiple_command, hchk, hdl, hsep, hmcd] at hmem
          · rcases hmd : make_dist inp.sdistFiles inp.dest_dir with e | moved
            · simp [build_multiple_command, hchk, hdl, hsep, hmcd, hmd] at hmem
            · simp [build_multiple_command, hchk, hdl, hsep, hmcd, hmd]
    · simp [build_multiple_command, hchk] at hmem
  · intro inp h0
    by_cases hchk : py_startswith (pypiVerStr inp.ansible_version)
        inp.buildFileData.build_ansible_version = true
    · rcases hdl : download_collections inp.registry inp.buildFileData.deps
          inp.schedule with e | inc
      · simp [build_multiple_command, hchk, hdl] at h0
      · rcases hsep : inp.installSepResult with e | dirs
        · simp [build_multiple_command, hchk, hdl, hsep] at h0
        · rcases hmcd : make_collection_dists inp.dest_dir dirs
              inp.collectionSdistFiles with e | outs
          · simp [build_multiple_command, hchk, hdl, hsep, hmcd] at h0
          · rcases hmd : make_dist inp.sdistFiles inp.dest_dir with e | moved
            · simp [build_multiple_command, hchk, hdl, hsep, hmcd, hmd] at h0
            · simp [build_multiple_command, hchk, hdl, hsep, hmcd, hmd]
              apply getLast?_cons_of_l
              apply getLast?_suffix
              apply getLast?_cons_of_l
              apply getLast?_suffix
              rfl
    · simp [build_multiple_command, hchk] at h0

theorem deps_file_written_only_on_success_witness :
    Event.writeDepsFile "/dest/ansible.deps" ∈ (build_single_command exInpOk).1 ∧
    (build_single_command exInpOk).2 = Outcome.exit 0 ∧
    (build_multiple_command exInpOk).1.getLast? =
      some (Event.writeDepsFile (exInpOk.dest_dir ++ "/" ++ exInpOk.deps_file)) := by
  refine ⟨by decide, ?_, ?_⟩
  · exact deps_file_written_only_on_success.1 exInpOk "/dest/ansible.deps" (by decide)
  · exact deps_file_written_only_on_success.2.2 exInpOk (by rfl)

/-- C7 counterexample: in the combined strategy (`build_single_command`) the
manifest write is not the last step of a successful build; it is followed
by saving the changelog and writing the release notes to the directory of
the build file. -/
theorem deps_file_not_last_in_single :
    (build_single_command exInpOk).2 = Outcome.exit 0 ∧
    Event.writeDepsFile "/dest/ansible.deps" ∈ (build_single_command exInpOk).1 ∧
    (build_single_command exInpOk).1.getLast? =
      some (Event.writePortingGuide "/src") ∧
    (build_single_command exInpOk).1.getLast? ≠
      some (Event.writeDepsFile "/dest/ansible.deps") := by
  exact ⟨by rfl, by decide, by rfl, by decide⟩

/-- C8 counterexample: the release-notes files of a successful combined
build are written to the directory containing the build file, which in
general is not the destination directory holding the dependency manifest;
here the manifest goes to /dest while the release notes go to /src. -/
theorem release_notes_not_in_dest_dir :
    exInpOk.dest_dir = "/dest" ∧
    dirname exInpOk.build_file = "/src" ∧
    (build_single_command exInpOk).2 = Outcome.exit 0 ∧
    Event.writeDepsFile "/dest/ansible.deps" ∈ (build_single_command exInpOk).1 ∧
    Event.writeChangelog "/dest" ∉ (build_single_command exInpOk).1 ∧
    Event.writePortingGuide "/dest" ∉ (build_single_command exInpOk).1 := by
  exact ⟨rfl, by rfl, by rfl, by decide, by decide, by decide⟩

/-- C8 (amended): In the combined strategy (`build_single_command`), the
generated changelog and porting-guide release-notes files are written both
into the temporary package build tree and into the directory containing
the build file (the dependency-data directory), which need not be the
destination directory that receives the dependency manifest. -/
theorem release_notes_written_to_package_and_deps_dir (inp : BuildInputs)
    (h0 : (build_single_command inp).2 = Outcome.exit 0) :
    Event.writeChangelog
        (inp.tmp_dir ++ "/ansible-" ++ pypiVerStr inp.ansible_version) ∈
      (build_single_command inp).1 ∧
    Event.writePortingGuide
        (inp.tmp_dir ++ "/ansible-" ++ pypiVerStr inp.ansible_version) ∈
      (build_single_command inp).1 ∧
    Event.writeChangelog (dirname inp.build_file) ∈ (build_single_command inp).1 ∧
    Event.writePortingGuide (dirname inp.build_file) ∈
      (build_single_command inp).1 := by
  by_cases hchk : py_startswith (pypiVerStr inp.ansible_version)
      inp.buildFileData.build_ansible_version = true
  · rcases hdl : download_collections inp.registry inp.buildFileData.deps
        inp.schedule with e | inc
    · simp [build_single_command, hchk, hdl] at h0
    · rcases hins : inp.installResult with e | u
      · simp [build_single_command, hchk, hdl, hins] at h0
      · rcases hmd : make_dist inp.sdistFiles inp.dest_dir with e | moved
        · simp [build_single_command, hchk, hdl, hins, hmd] at h0
        · simp [build_single_command, hchk, hdl, hins, hmd]
  · simp [build_single_command, hchk] at h0

theorem release_notes_written_to_package_and_deps_dir_witness :
    (build_single_command exInpOk).2 = Outcome.exit 0 ∧
    (Event.writeChangelog
        (exInpOk.tmp_dir ++ "/ansible-" ++ pypiVerStr exInpOk.ansible_version) ∈
      (build_single_command exInpOk).1 ∧
    Event.writePortingGuide
        (exInpOk.tmp_dir ++ "/ansible-" ++ pypiVerStr exInpOk.ansible_version) ∈
      (build_single_command exInpOk).1 ∧
    Event.writeChangelog (dirname exInpOk.build_file) ∈
      (build_single_command exInpOk).1 ∧
    Event.writePortingGuide (dirname exInpOk.build_file) ∈
      (build_single_command exInpOk).1) :=
  ⟨by rfl, release_notes_written_to_package_and_deps_dir exInpOk (by rfl)⟩

/-- C9: The version compatibility check in `build_single_command` and
`build_multiple_command` accepts any target version whose string form
merely starts with the build file's declared version string: whenever the
string-prefix test passes both commands proceed past the check (the
download directory is created), and there is a concrete target version
(2.11.0 against declared prefix "2.1") whose major.minor differs from the
declared prefix for which the check passes and the build proceeds. -/
theorem version_check_is_string_prefix_check :
    (∀ inp : BuildInputs,
      py_startswith (pypiVerStr inp.ansible_version)
        inp.buildFileData.build_ansible_version = true →
      Event.mkdir (inp.tmp_dir ++ "/collections") ∈ (build_single_command inp).1 ∧
      Event.mkdir (inp.tmp_dir ++ "/collections") ∈
        (build_multiple_command inp).1) ∧
    (py_startswith (pypiVerStr (PypiVer.mk 2 11 0)) "2.1" = true ∧
    majorMinorOfString "2.1" = some (2, 1) ∧
    ((2 : Nat), (11 : Nat)) ≠ ((2 : Nat), (1 : Nat)) ∧
    exInpBad.buildFileData.build_ansible_version = "2.1" ∧
    exInpBad.ansible_version = PypiVer.mk 2 11 0 ∧
    (build_single_command exInpBad).2 = Outcome.exit 0 ∧
    (build_multiple_command exInpBad).2 = Outcome.exit 0 ∧
    Event.fetch "community.general" ∈ (build_single_command exInpBad).1 ∧
    Event.fetch "community.general" ∈ (build_multiple_command exInpBad).1) := by
  constructor
  · intro inp hchk
    constructor
    · rcases hdl : download_collections inp.registry inp.buildFileData.deps
          inp.schedule with e | inc
      · simp [build_single_command, hchk, hdl]
      · rcases hins : inp.installResult with e | u
        · simp [build_single_command, hchk, hdl, hins]
        · rcases hmd : make_dist inp.sdistFiles inp.dest_dir with e | moved
          · by_cases hdeb : inp.debian = true <;>
              simp [build_single_command, hchk, hdl, hins, hmd, hdeb]
          · simp [build_single_command, hchk, hdl, hins, hmd]
    · rcases hdl : download_collections inp.registry inp.buildFileData.deps
          inp.schedule with e | inc
      · simp [build_multiple_command, hchk, hdl]
      · rcases hsep : inp.installSepResult with e | dirs
        · simp [build_multiple_command, hchk, hdl, hsep]
        · rcases hmcd : make_collection_dists inp.dest_dir dirs
              inp.collectionSdistFiles with e | outs
          · simp [build_multiple_command, hchk, hdl, hsep, hmcd]
          · rcases hmd : make_dist inp.sdistFiles inp.dest_dir with e | moved
            · simp [build_multiple_command, hchk, hdl, hsep, hmcd, hmd]
            · simp [build_multiple_command, hchk, hdl, hsep, hmcd, hmd]
  · exact ⟨by rfl, by rfl, by decide, rfl, rfl, by rfl, by rfl, by decide, by decide⟩

theorem version_check_is_string_prefix_check_witness :
    py_startswith (pypiVerStr exInpBad.ansible_version)
      exInpBad.buildFileData.build_ansible_version = true ∧
    Event.mkdir (exInpBad.tmp_dir ++ "/collections") ∈
      (build_single_command exInpBad).1 ∧
    Event.mkdir (exInpBad.tmp_dir ++ "/collections") ∈
      (build_multiple_command exInpBad).1 := by
  refine ⟨by rfl, ?_, ?_⟩
  · exact (version_check_is_string_prefix_check.1 exInpBad (by rfl)).1
  · exact (version_check_is_string_prefix_check.1 exInpBad (by rfl)).2

/-- C5 failing input: the build file declares version "2.1" while version
2.11.0 is being built.  Their major.minor disagree (2.1 versus 2.11), so
the claim (and the code's own error message, which says the build file
must match the requested major.minor) requires exit code 1 before any
network or filesystem activity; instead the `startswith` check passes and
both commands create the download directory, fetch collections and finish
with exit code 0. -/
theorem version_mismatch_not_rejected_at_bug_input :
    majorMinorOfString exInpBad.buildFileData.build_ansible_version =
      some (2, 1) ∧
    (exInpBad.ansible_version.major, exInpBad.ansible_version.minor) = (2, 11) ∧
    ((2 : Nat), (11 : Nat)) ≠ ((2 : Nat), (1 : Nat)) ∧
    (build_single_command exInpBad).2 ≠ Outcome.exit 1 ∧
    (build_multiple_command exInpBad).2 ≠ Outcome.exit 1 ∧
    (build_single_command exInpBad).2 = Outcome.exit 0 ∧
    (build_multiple_command exInpBad).2 = Outcome.exit 0 ∧
    Event.mkdir (exInpBad.tmp_dir ++ "/collections") ∈
      (build_single_command exInpBad).1 ∧
    Event.fetch "ansible.posix" ∈ (build_single_command exInpBad).1 ∧
    Event.fetch "ansible.posix" ∈ (build_multiple_command exInpBad).1 ∧
    build_single_command exInpMismatch =
      ([Event.readBuildFile "/src/ansible.build"], Outcome.exit 1) ∧
    build_multiple_command exInpMismatch =
      ([Event.readBuildFile "/src/ansible.build"], Outcome.exit 1) := by
  exact ⟨by rfl, rfl, by decide, by decide, by decide, by rfl, by rfl,
    by decide, by decide, by decide, by rfl, by rfl⟩
